/-
  Verification of the City A.M. daily extractor
  (src/cityam_blog_extractor.py) against its specification.

  Python strings are modelled as `List Char`; machine effects (network,
  filesystem, clock) are passed in explicitly, so every function of the
  script becomes a pure Lean function over those inputs.
-/
import Mathlib

set_option maxRecDepth 16384

namespace CityAM

/-- Characters of a Lean string literal; Python string literals are
written `str "..."` throughout the embedding. -/
def str (s : String) : List Char := s.data

/-- ASCII whitespace, the characters `str.split()` splits on for the
ASCII inputs this development works with (space, tab, LF, CR, VT, FF). -/
def wsChar (c : Char) : Bool :=
  c = ' ' || c = '\t' || c = '\n' || c = '\r' ||
  c = Char.ofNat 11 || c = Char.ofNat 12

/-- Scanner of `splitWs`; `cur` is the reversed word being read. -/
def splitWsAux (cur : List Char) : List Char → List (List Char)
  | [] => if cur = [] then [] else [cur.reverse]
  | c :: cs =>
    if wsChar c then
      if cur = [] then splitWsAux [] cs else cur.reverse :: splitWsAux [] cs
    else splitWsAux (c :: cur) cs

/-- Python `text.split()` (no separator argument): split on runs of
whitespace, dropping empty words. -/
def splitWs (s : List Char) : List (List Char) := splitWsAux [] s

/-- Python `' '.join(words)`. -/
def joinSpace : List (List Char) → List Char
  | [] => []
  | [w] => w
  | w :: ws => w ++ ' ' :: joinSpace ws

/-- Scanner of `stripTags`, modelling Python
`re.sub(re.compile('<.*?>'), '', text)` left to right. `buf` is `none`
outside any candidate tag; after an unconsumed `<` it holds, reversed,
the characters read since that `<`. Python's `.` does not match a
newline, so a newline before the closing `>` aborts the candidate match
and the `<` (with the buffered characters) is kept verbatim; the same
happens at end of input. A `>` closes the candidate and the whole
`<...>` span is deleted. -/
def stripTagsAux : Option (List Char) → List Char → List Char
  | none, [] => []
  | some buf, [] => '<' :: buf.reverse
  | none, c :: rest =>
    if c = '<' then stripTagsAux (some []) rest
    else c :: stripTagsAux none rest
  | some buf, c :: rest =>
    if c = '>' then stripTagsAux none rest
    else if c = '\n' then '<' :: (buf.reverse ++ '\n' :: stripTagsAux none rest)
    else stripTagsAux (some (c :: buf)) rest

/-- Python `re.sub(re.compile('<.*?>'), '', text)`. -/
def stripTags (text : List Char) : List Char := stripTagsAux none text

/-- Models Python `html.unescape` restricted to the semicolon-terminated
named entities `lt`, `gt`, `amp`, `quot` (a single left-to-right,
non-reentrant pass, as `html.unescape` performs). The full HTML5 entity
table (numeric references, semicolon-less forms, the remaining names) is
not reached by any property proved in this file. -/
def unescape : List Char → List Char
  | [] => []
  | '&' :: 'l' :: 't' :: ';' :: rest => '<' :: unescape rest
  | '&' :: 'g' :: 't' :: ';' :: rest => '>' :: unescape rest
  | '&' :: 'a' :: 'm' :: 'p' :: ';' :: rest => '&' :: unescape rest
  | '&' :: 'q' :: 'u' :: 'o' :: 't' :: ';' :: rest => '"' :: unescape rest
  | c :: rest => c :: unescape rest

/-- `CityAMExtractor.clean_html`: empty guard, tag removal, entity
decoding, whitespace collapse via `' '.join(text.split())`. -/
def clean_html (text : List Char) : List Char :=
  if text = [] then []
  else joinSpace (splitWs (unescape (stripTags text)))

/-- The summary cap applied in `extract_articles`:
`if len(summary) > 300: summary = summary[:297] + '...'`. -/
def truncateSummary (summary : List Char) : List Char :=
  if summary.length > 300 then summary.take 297 ++ str "..." else summary

/-! ## Data model -/

/-- A feed tag object; only its `term` attribute is read. -/
structure Tag where
  term : List Char
deriving DecidableEq

/-- A feed entry as delivered by `feedparser`: every field the script
reads through `entry.get(...)`, `none` when the key is missing. -/
structure RawEntry where
  title : Option (List Char)
  summary : Option (List Char)
  description : Option (List Char)
  link : Option (List Char)
  published : Option (List Char)
  author : Option (List Char)
  tags : Option (List Tag)
deriving DecidableEq

/-- Feed-level metadata read through `feed.feed.get(...)`. -/
structure FeedMeta where
  title : Option (List Char)
  description : Option (List Char)
  updated : Option (List Char)
deriving DecidableEq

/-- The result of `feedparser.parse`. -/
structure ParsedFeed where
  bozo : Bool
  feed : FeedMeta
  entries : List RawEntry
deriving DecidableEq

/-- The normalized article dict built in `extract_articles`. -/
structure Article where
  title : List Char
  link : List Char
  summary : List Char
  published : List Char
  author : List Char
  categories : List (List Char)
deriving DecidableEq

/-- The dict returned by `extract_articles` on success. -/
structure FeedData where
  feed_title : List Char
  feed_description : List Char
  last_updated : List Char
  articles : List Article
deriving DecidableEq

/-! ## Feed fetcher and article selector -/

/-- `self.rss_feeds`, fixed in `__init__`. -/
def rss_feeds : List (List Char × List Char) :=
  [(str "news", str "https://www.cityam.com/news/rss"),
   (str "business", str "https://www.cityam.com/news/feed")]

/-- `self.base_url`, fixed in `__init__`. -/
def base_url : List Char := str "https://www.cityam.com"

/-- `self.output_dir`, fixed in `__init__`. -/
def output_dir : List Char := str "summaries"

/-- Python `self.rss_feeds.get(feed_name)`. -/
def lookupFeed (feedName : List Char) : Option (List Char) :=
  (rss_feeds.find? (fun p => p.1 == feedName)).map (·.2)

/-- The article dict built from one entry in `extract_articles`: clean
title (default `'No title'`), clean then cap the summary (default: the
`description` field, else `''`), and the remaining `entry.get` defaults. -/
def normalizeEntry (e : RawEntry) : Article :=
  { title := clean_html (e.title.getD (str "No title"))
    link := e.link.getD []
    summary := truncateSummary (clean_html (e.summary.getD (e.description.getD [])))
    published := e.published.getD []
    author := e.author.getD (str "City A.M.")
    categories := (e.tags.getD []).map Tag.term }

/-- `CityAMExtractor.extract_articles`. Network retrieval is passed in as
`fetch` (the `feedparser.parse` call over HTTP); a `fetch` returning
`Except.error` models a raised network/parse exception, which the
enclosing `try/except Exception` converts into a `None` return. The first
component is the call's outcome — `Except.error msg` models the
`ValueError` raised for an unrecognized (or falsy) feed URL, `Except.ok
none` the `None` returns, `Except.ok (some d)` the success dict. The
second component is the list of URLs actually fetched, recording whether
a network call was made. -/
def extract_articles (feedName : List Char) (maxArticles : Nat)
    (fetch : List Char → Except (List Char) ParsedFeed) :
    Except (List Char) (Option FeedData) × List (List Char) :=
  match lookupFeed feedName with
  | none => (Except.error (str "Unknown feed: " ++ feedName), [])
  | some feedUrl =>
    if feedUrl = [] then (Except.error (str "Unknown feed: " ++ feedName), [])
    else
      match fetch feedUrl with
      | Except.error _ => (Except.ok none, [feedUrl])
      | Except.ok feed =>
        if feed.entries = [] then (Except.ok none, [feedUrl])
        else
          (Except.ok (some
            { feed_title := feed.feed.title.getD (str "City A.M. News")
              feed_description := feed.feed.description.getD []
              last_updated := feed.feed.updated.getD []
              articles := (feed.entries.take maxArticles).map normalizeEntry }),
           [feedUrl])

/-! ## Document renderer -/

/-- Python `', '.join(xs)`. -/
def joinCommaSpace : List (List Char) → List Char
  | [] => []
  | [x] => x
  | x :: xs => x ++ str ", " ++ joinCommaSpace xs

/-- `', '.join(article['categories']) if article['categories'] else 'Business News'`. -/
def categoriesText (cats : List (List Char)) : List Char :=
  if cats = [] then str "Business News" else joinCommaSpace cats

/-- The f-string block appended for article number `i` in the
`generate_blog_post` loop; `str (Nat.repr i)` renders `{i}`. -/
def sectionText (i : Nat) (a : Article) : List Char :=
  str "## " ++ str (Nat.repr i) ++ str ". " ++ a.title ++
  str "\n\n**Summary**: " ++ a.summary ++
  str "\n\n**Categories**: " ++ categoriesText a.categories ++
  str "\n\n**[Read the full article at City A.M.](" ++ a.link ++
  str ")**\n\n---\n\n"

/-- The `for i, article in enumerate(feed_data['articles'], 1)` loop:
concatenation of the section blocks, numbering from `i`. -/
def sections (i : Nat) : List Article → List Char
  | [] => []
  | a :: rest => sectionText i a ++ sections (i + 1) rest

/-- The header f-string of `generate_blog_post`; `today` is
`datetime.now().strftime('%B %d, %Y')`, passed in explicitly. -/
def headerText (today : List Char) : List Char :=
  str "# Daily Business News Summary - " ++ today ++
  str "\n*Curated from City A.M. Business News*\n\n---\n\nGood morning! Here's your daily roundup of the top business stories from City A.M., London's leading business newspaper.\n\n"

/-- The footer f-string of `generate_blog_post`; `nowStamp` is
`datetime.now().strftime('%Y-%m-%d %H:%M UTC')`, passed in explicitly. -/
def footerText (blogName authorName nowStamp : List Char) : List Char :=
  str "\n## About This Summary\n\nThis daily summary is automatically curated from [City A.M.](" ++
  base_url ++
  str "), London's premier business newspaper. All original reporting and content rights belong to City A.M. \n\n*Summary compiled by " ++
  authorName ++ str " for " ++ blogName ++
  str " | Original content © City A.M.*\n\n**Want to stay updated?** \n- Visit [City A.M.](" ++
  base_url ++
  str ") for complete coverage\n- Download their [free mobile app](https://www.cityam.com/apps/)\n- Subscribe to their newsletters\n\n---\n*Disclaimer: This is a curated summary for informational purposes. Please visit the original articles for complete reporting and context.*\n\n*Last updated: " ++
  nowStamp ++ str "*\n"

/-- `CityAMExtractor.generate_blog_post`. The two clock reads are the
explicit `today` and `nowStamp` arguments; in Python `blog_name` and
`author_name` default to `"Business News Blog"` / `"Automated Summary"`. -/
def generate_blog_post (feedData : Option FeedData)
    (blogName authorName today nowStamp : List Char) : List Char :=
  match feedData with
  | none => str "No articles available for summary."
  | some fd =>
    if fd.articles = [] then str "No articles available for summary."
    else headerText today ++ sections 1 fd.articles ++
         footerText blogName authorName nowStamp

/-! ## Persistence writer and orchestrator -/

/-- A filesystem write performed by the script. -/
structure FsWrite where
  path : List Char
  content : List Char
deriving DecidableEq

/-- `CityAMExtractor.save_blog_post`: default filename
`f"cityam_summary_{date_str}.md"` with `date_str =
datetime.now().strftime('%Y-%m-%d')` (passed in as `dateStr`), path
`os.path.join(self.output_dir, filename)`. Returns the filepath together
with the write performed. -/
def save_blog_post (content : List Char) (filename : Option (List Char))
    (dateStr : List Char) : List Char × FsWrite :=
  let fname := filename.getD (str "cityam_summary_" ++ dateStr ++ str ".md")
  let filepath := output_dir ++ str "/" ++ fname
  (filepath, ⟨filepath, content⟩)

/-- `os.path.basename` for the relative slash-separated paths this script
builds. -/
def basenameAux (cur : List Char) : List Char → List Char
  | [] => cur.reverse
  | c :: rest => if c = '/' then basenameAux [] rest else basenameAux (c :: cur) rest

/-- `os.path.basename`. -/
def basename (p : List Char) : List Char := basenameAux [] p

/-- `CityAMExtractor.update_index`: the regenerated `README.md` write. -/
def update_index (newFilename : List Char) (dateStr : List Char) : FsWrite :=
  ⟨str "README.md",
   str "# Daily City A.M. Business News Summaries\n\nThis repository automatically generates daily business news summaries from City A.M.'s RSS feed.\n\n## Latest Summary\n📰 **[" ++
   dateStr ++ str " Summary](summaries/" ++ basename newFilename ++
   str ")**\n\n## About\n- **Source**: [City A.M.](https://www.cityam.com) - London's leading business newspaper\n- **Update Frequency**: Daily at 8:00 AM UTC\n- **Content**: Top 5 business stories with summaries and links to full articles\n- **Legal**: All content properly attributed with links to original sources\n\n## Archive\nAll daily summaries are stored in the [`summaries/`](summaries/) directory.\n\n## How It Works\nThis repository uses GitHub Actions to automatically:\n1. Fetch the latest articles from City A.M.'s RSS feed\n2. Generate formatted summaries with proper attribution\n3. Commit and push the new content daily\n\n---\n*Automated by GitHub Actions | Content © City A.M.*\n"⟩

/-- Outcome of one `run_daily_extraction` invocation. -/
structure RunResult where
  exitCode : Option Nat
  written : List FsWrite
deriving DecidableEq

/-- `CityAMExtractor.run_daily_extraction`, with the clock reads passed in
(`todayLong` = `'%B %d, %Y'`, `dateStr` = `'%Y-%m-%d'`, `nowStamp` =
`'%Y-%m-%d %H:%M UTC'`) and the filesystem writes modelled as succeeding.
`exitCode = some 1` models `sys.exit(1)` (reached both when the fetch
reports no data and when the enclosing `except Exception` catches a
raised error, including the unknown-feed `ValueError`); `exitCode = none`
models the successful `return True`. -/
def run_daily_extraction (fetch : List Char → Except (List Char) ParsedFeed)
    (todayLong dateStr nowStamp : List Char) : RunResult :=
  match (extract_articles (str "news") 5 fetch).1 with
  | Except.error _ => { exitCode := some 1, written := [] }
  | Except.ok none => { exitCode := some 1, written := [] }
  | Except.ok (some fd) =>
    let blogContent := generate_blog_post (some fd) (str "Business News Blog")
      (str "Automated Summary") todayLong nowStamp
    let saved := save_blog_post blogContent none dateStr
    { exitCode := none, written := [saved.2, update_index saved.1 dateStr] }

/-! ## Sample data shared by the concrete witnesses -/

/-- A sample entry with every field present. -/
def entryFull : RawEntry :=
  { title := some (str "Markets <b>rally</b>")
    summary := some (str "Shares rose &amp; bonds fell.")
    description := some (str "unused")
    link := some (str "https://www.cityam.com/a1")
    published := some (str "Mon, 06 Oct 2025")
    author := some (str "Jane Doe")
    tags := some [⟨str "Markets"⟩, ⟨str "UK"⟩] }

/-- A sample entry with every field missing. -/
def entryEmpty : RawEntry :=
  { title := none, summary := none, description := none,
    link := none, published := none, author := none, tags := none }

/-- A sample parsed feed with two entries. -/
def feedTwo : ParsedFeed :=
  { bozo := false
    feed := { title := some (str "City A.M. News"), description := none, updated := none }
    entries := [entryFull, entryEmpty] }

/-- A sample parsed feed with zero entries. -/
def feedEmpty : ParsedFeed :=
  { bozo := false
    feed := { title := none, description := none, updated := none }
    entries := [] }

/-- A sample article with every field populated. -/
def articleW1 : Article :=
  { title := str "Alpha", link := str "https://www.cityam.com/a1",
    summary := str "S1", published := str "P1", author := str "A1",
    categories := [str "Markets", str "UK"] }

/-- A sample article with minimal fields. -/
def articleW2 : Article :=
  { title := str "Beta", link := [], summary := [], published := [],
    author := str "City A.M.", categories := [] }

/-- A sample feed-data value with two articles. -/
def fdW : FeedData :=
  { feed_title := str "City A.M. News", feed_description := [],
    last_updated := [], articles := [articleW1, articleW2] }

/-! ## Observers used to state the claims -/

/-- `l` has no two adjacent whitespace characters. -/
def noDoubleWs : List Char → Bool
  | a :: b :: rest => !(wsChar a && wsChar b) && noDoubleWs (b :: rest)
  | _ => true

/-- `l` neither starts nor ends with a whitespace character. -/
def noEdgeWs (l : List Char) : Bool :=
  (match l.head? with | some c => !wsChar c | none => true) &&
  (match l.getLast? with | some c => !wsChar c | none => true)

/-- `l` contains a full `<...>` tag sequence: a `<` with a later `>`. -/
def hasTagSeq (l : List Char) : Bool :=
  match l.dropWhile (fun c => c != '<') with
  | [] => false
  | _ :: rest => rest.contains '>'

/-- Split a character list at newlines; always returns at least one
(possibly empty) line, like Python `text.split('\n')`. -/
def splitLines : List Char → List (List Char)
  | [] => [[]]
  | c :: cs =>
    if c = '\n' then [] :: splitLines cs
    else
      match splitLines cs with
      | [] => [[c]]
      | w :: ws => (c :: w) :: ws

/-- Prepend `x` to the first line of `ls` (`[x]` when `ls` is empty). -/
def consHead (x : List Char) : List (List Char) → List (List Char)
  | [] => [x]
  | w :: ws => (x ++ w) :: ws

/-- `l` contains no newline. -/
def noNl (l : List Char) : Bool := l.all (fun c => c != '\n')

/-- A numbered section heading of the rendered post: a line starting
`## ` followed by a decimal digit. -/
def isNumberedHeader : List Char → Bool
  | '#' :: '#' :: ' ' :: c :: _ => c.isDigit
  | _ => false

/-- The numbered section headings of a rendered document, in order. -/
def numberedHeaderLines (s : List Char) : List (List Char) :=
  (splitLines s).filter isNumberedHeader

/-- The section heading lines that `sections k arts` emits, in order. -/
def sectionHeaders (k : Nat) : List Article → List (List Char)
  | [] => []
  | a :: rest =>
    (str "## " ++ str (Nat.repr k) ++ str ". " ++ a.title) :: sectionHeaders (k + 1) rest

/-! ## Model checks: the sanitizer embedding against CPython behaviour -/

theorem clean_html_check_tags :
    clean_html (str "<b>Hello</b>&amp; <i>world</i>") = str "Hello& world" := by decide

theorem clean_html_check_ws : clean_html (str "  a \n\n b  ") = str "a b" := by decide

theorem clean_html_check_entity_tag : clean_html (str "&lt;b&gt;") = str "<b>" := by decide

theorem clean_html_check_double_entity :
    clean_html (str "&amp;amp;") = str "&amp;" := by decide

theorem clean_html_check_newline_tag :
    clean_html (str "<a\nb>") = str "<a b>" := by decide

theorem clean_html_check_unclosed : clean_html (str "a<b>c<d") = str "ac<d" := by decide

/-! ## Evaluation lemmas for `extract_articles` -/

theorem extract_articles_unknown (name : List Char) (N : Nat)
    (fetch : List Char → Except (List Char) ParsedFeed)
    (h : lookupFeed name = none) :
    extract_articles name N fetch
      = (Except.error (str "Unknown feed: " ++ name), []) := by
  unfold extract_articles
  rw [h]

theorem extract_articles_exn (name url e : List Char) (N : Nat)
    (fetch : List Char → Except (List Char) ParsedFeed)
    (h1 : lookupFeed name = some url) (h2 : url ≠ [])
    (h3 : fetch url = Except.error e) :
    extract_articles name N fetch = (Except.ok none, [url]) := by
  unfold extract_articles
  rw [h1]
  change (if url = [] then _ else _) = _
  rw [if_neg h2, h3]

theorem extract_articles_empty (name url : List Char) (N : Nat)
    (fetch : List Char → Except (List Char) ParsedFeed) (feed : ParsedFeed)
    (h1 : lookupFeed name = some url) (h2 : url ≠ [])
    (h3 : fetch url = Except.ok feed) (h4 : feed.entries = []) :
    extract_articles name N fetch = (Except.ok none, [url]) := by
  unfold extract_articles
  rw [h1]
  change (if url = [] then _ else _) = _
  rw [if_neg h2, h3]
  change (if feed.entries = [] then _ else _) = _
  rw [if_pos h4]

theorem extract_articles_ok (name url : List Char) (N : Nat)
    (fetch : List Char → Except (List Char) ParsedFeed) (feed : ParsedFeed)
    (h1 : lookupFeed name = some url) (h2 : url ≠ [])
    (h3 : fetch url = Except.ok feed) (h4 : feed.entries ≠ []) :
    extract_articles name N fetch
      = (Except.ok (some
          { feed_title := feed.feed.title.getD (str "City A.M. News")
            feed_description := feed.feed.description.getD []
            last_updated := feed.feed.updated.getD []
            articles := (feed.entries.take N).map normalizeEntry }),
         [url]) := by
  unfold extract_articles
  rw [h1]
  change (if url = [] then _ else _) = _
  rw [if_neg h2, h3]
  change (if feed.entries = [] then _ else _) = _
  rw [if_neg h4]

theorem lookupFeed_news :
    lookupFeed (str "news") = some (str "https://www.cityam.com/news/rss") := by
  decide

theorem lookupFeed_business :
    lookupFeed (str "business") = some (str "https://www.cityam.com/news/feed") := by
  decide

/-! ## Claims about saving, selection, fetching, defaults -/

/-- C1 counterexample: with no explicit filename and current date
2026-10-12, `save_blog_post` writes `summaries/cityam_summary_2026-10-12.md`
— not `news_summary_2026-10-12.md` as the claim derives from the 'news'
source label. -/
theorem C1_counterexample :
    (save_blog_post (str "body") none (str "2026-10-12")).1
      = str "summaries/cityam_summary_2026-10-12.md"
    ∧ (save_blog_post (str "body") none (str "2026-10-12")).1
      ≠ str "summaries/news_summary_2026-10-12.md" := by
  constructor
  · rfl
  · decide

/-- C1 amended: when `save` is called without an explicit filename, the
file is written under the output directory under the fixed name
`cityam_summary_{YYYY-MM-DD}.md` built from the current local date (the
source label does not enter the name); an end-to-end 'news' run writes
exactly that artifact (and the regenerated `README.md` index). -/
theorem C1_theorem (content dateStr todayLong nowStamp : List Char)
    (fetch : List Char → Except (List Char) ParsedFeed) (feed : ParsedFeed)
    (hf : fetch (str "https://www.cityam.com/news/rss") = Except.ok feed)
    (hne : feed.entries ≠ []) :
    (save_blog_post content none dateStr).1
      = str "summaries/cityam_summary_" ++ dateStr ++ str ".md"
    ∧ (run_daily_extraction fetch todayLong dateStr nowStamp).written.map FsWrite.path
      = [str "summaries/cityam_summary_" ++ dateStr ++ str ".md", str "README.md"] := by
  constructor
  · rfl
  · unfold run_daily_extraction
    rw [extract_articles_ok _ _ _ _ _ lookupFeed_news (by decide) hf hne]
    rfl

/-- C1 witness for the amended theorem at a concrete run. -/
theorem C1_witness :
    (save_blog_post (str "body") none (str "2026-10-12")).1
      = str "summaries/cityam_summary_" ++ str "2026-10-12" ++ str ".md"
    ∧ (run_daily_extraction (fun _ => Except.ok feedTwo) (str "October 12, 2026")
        (str "2026-10-12") (str "2026-10-12 08:00 UTC")).written.map FsWrite.path
      = [str "summaries/cityam_summary_" ++ str "2026-10-12" ++ str ".md", str "README.md"] :=
  C1_theorem (str "body") (str "2026-10-12") (str "October 12, 2026")
    (str "2026-10-12 08:00 UTC") (fun _ => Except.ok feedTwo) feedTwo rfl (by decide)

/-- C3: a sanitized summary of length at most 300 is stored unchanged; a
longer one is stored as its first 297 characters followed by the
three-character marker `...`, for a total length of exactly 300. -/
theorem C3_theorem (s : List Char) :
    (s.length ≤ 300 → truncateSummary s = s)
    ∧ (300 < s.length →
        truncateSummary s = s.take 297 ++ str "..."
        ∧ (truncateSummary s).length = 300) := by
  constructor
  · intro h
    unfold truncateSummary
    rw [if_neg (by omega)]
  · intro h
    have he : truncateSummary s = s.take 297 ++ str "..." := by
      unfold truncateSummary
      rw [if_pos (by omega)]
    refine ⟨he, ?_⟩
    rw [he, List.length_append, List.length_take]
    have h3 : (str "...").length = 3 := rfl
    rw [h3]
    omega

/-- C3 witness: a 301-character summary is stored with length exactly 300,
as its first 297 characters plus `...`; a short summary is unchanged. -/
theorem C3_witness :
    truncateSummary (List.replicate 301 'a') = List.replicate 297 'a' ++ str "..."
    ∧ (truncateSummary (List.replicate 301 'a')).length = 300
    ∧ truncateSummary (str "short") = str "short" := by
  have h := (C3_theorem (List.replicate 301 'a')).2
    (by rw [List.length_replicate]; omega)
  refine ⟨?_, h.2, (C3_theorem (str "short")).1 (by decide)⟩
  rw [h.1, List.take_replicate]
  rfl

/-- C5: for a fetched feed with at least one entry and any maximum count
N > 0, the article selector returns exactly the first N entries of the
feed, normalized, in feed order; the output length is
min(N, number of entries). -/
theorem C5_theorem (feed : ParsedFeed) (N : Nat) (hN : 0 < N)
    (fetch : List Char → Except (List Char) ParsedFeed)
    (hf : fetch (str "https://www.cityam.com/news/rss") = Except.ok feed)
    (hne : feed.entries ≠ []) :
    ∃ fd, (extract_articles (str "news") N fetch).1 = Except.ok (some fd)
      ∧ fd.articles = (feed.entries.take N).map normalizeEntry
      ∧ fd.articles.length = min N feed.entries.length := by
  refine ⟨{ feed_title := feed.feed.title.getD (str "City A.M. News")
            feed_description := feed.feed.description.getD []
            last_updated := feed.feed.updated.getD []
            articles := (feed.entries.take N).map normalizeEntry }, ?_, rfl, ?_⟩
  · rw [extract_articles_ok _ _ _ _ _ lookupFeed_news (by decide) hf hne]
  · simp [List.length_take]

/-- C5 witness: a two-entry feed with N = 5 yields both entries,
normalized, in order; the length is min 5 2 = 2. -/
theorem C5_witness :
    ∃ fd, (extract_articles (str "news") 5 (fun _ => Except.ok feedTwo)).1
        = Except.ok (some fd)
      ∧ fd.articles = (feedTwo.entries.take 5).map normalizeEntry
      ∧ fd.articles.length = min 5 feedTwo.entries.length :=
  C5_theorem feedTwo 5 (by decide) (fun _ => Except.ok feedTwo) rfl (by decide)

/-- C6: a successful fetch with zero entries makes `extract_articles`
return `None` (never a result with an empty article list), and the run
then terminates with exit code 1 having written nothing. -/
theorem C6_theorem (fetch : List Char → Except (List Char) ParsedFeed)
    (feed : ParsedFeed) (todayLong dateStr nowStamp : List Char)
    (hf : fetch (str "https://www.cityam.com/news/rss") = Except.ok feed)
    (h0 : feed.entries = []) :
    (extract_articles (str "news") 5 fetch).1 = Except.ok none
    ∧ run_daily_extraction fetch todayLong dateStr nowStamp
        = { exitCode := some 1, written := [] } := by
  have hex : extract_articles (str "news") 5 fetch
      = (Except.ok none, [str "https://www.cityam.com/news/rss"]) :=
    extract_articles_empty _ _ _ _ _ lookupFeed_news (by decide) hf h0
  refine ⟨by rw [hex], ?_⟩
  unfold run_daily_extraction
  rw [hex]

/-- C6 witness: the empty sample feed makes the run exit with code 1 and
write no files. -/
theorem C6_witness :
    (extract_articles (str "news") 5 (fun _ => Except.ok feedEmpty)).1 = Except.ok none
    ∧ run_daily_extraction (fun _ => Except.ok feedEmpty) (str "October 12, 2026")
        (str "2026-10-12") (str "2026-10-12 08:00 UTC")
        = { exitCode := some 1, written := [] } :=
  C6_theorem (fun _ => Except.ok feedEmpty) feedEmpty (str "October 12, 2026")
    (str "2026-10-12") (str "2026-10-12 08:00 UTC") rfl rfl

/-- C7: a source label outside the configured feed mapping makes
`extract_articles` fail with the unknown-feed error before any network
call (the fetched-URL trace is empty); for each recognized label the call
never produces that error, whatever the network does. -/
theorem C7_theorem :
    (∀ (name : List Char) (N : Nat)
       (fetch : List Char → Except (List Char) ParsedFeed),
       lookupFeed name = none →
       extract_articles name N fetch
         = (Except.error (str "Unknown feed: " ++ name), []))
    ∧ (∀ (N : Nat) (fetch : List Char → Except (List Char) ParsedFeed),
       ∃ v, (extract_articles (str "news") N fetch).1 = Except.ok v)
    ∧ (∀ (N : Nat) (fetch : List Char → Except (List Char) ParsedFeed),
       ∃ v, (extract_articles (str "business") N fetch).1 = Except.ok v) := by
  refine ⟨fun name N fetch h => extract_articles_unknown name N fetch h,
    fun N fetch => ?_, fun N fetch => ?_⟩
  · cases hfe : fetch (str "https://www.cityam.com/news/rss") with
    | error e =>
      exact ⟨none, by rw [extract_articles_exn _ _ _ _ _ lookupFeed_news (by decide) hfe]⟩
    | ok feed =>
      by_cases h : feed.entries = []
      · exact ⟨none,
          by rw [extract_articles_empty _ _ _ _ _ lookupFeed_news (by decide) hfe h]⟩
      · exact ⟨_,
          by rw [extract_articles_ok _ _ _ _ _ lookupFeed_news (by decide) hfe h]⟩
  · cases hfe : fetch (str "https://www.cityam.com/news/feed") with
    | error e =>
      exact ⟨none, by rw [extract_articles_exn _ _ _ _ _ lookupFeed_business (by decide) hfe]⟩
    | ok feed =>
      by_cases h : feed.entries = []
      · exact ⟨none,
          by rw [extract_articles_empty _ _ _ _ _ lookupFeed_business (by decide) hfe h]⟩
      · exact ⟨_,
          by rw [extract_articles_ok _ _ _ _ _ lookupFeed_business (by decide) hfe h]⟩

/-- C7 witness: the label 'sports' is rejected with no network call, and
the label 'news' is accepted. -/
theorem C7_witness :
    extract_articles (str "sports") 5 (fun _ => Except.ok feedTwo)
      = (Except.error (str "Unknown feed: sports"), [])
    ∧ ∃ v, (extract_articles (str "news") 5 (fun _ => Except.ok feedTwo)).1
      = Except.ok v := by
  refine ⟨?_, C7_theorem.2.1 5 (fun _ => Except.ok feedTwo)⟩
  have h := C7_theorem.1 (str "sports") 5 (fun _ => Except.ok feedTwo) (by decide)
  rw [h]
  rfl

/-- C8: an exception raised during feed retrieval (any `fetch` error) is
caught at the fetch boundary: `extract_articles` returns `None` instead
of propagating the exception, with exactly the one attempted URL in the
trace. -/
theorem C8_theorem (name url e : List Char) (N : Nat)
    (fetch : List Char → Except (List Char) ParsedFeed)
    (h1 : lookupFeed name = some url) (h2 : url ≠ [])
    (h3 : fetch url = Except.error e) :
    extract_articles name N fetch = (Except.ok none, [url]) :=
  extract_articles_exn name url e N fetch h1 h2 h3

/-- C8 witness: a fetch raising a network error on the 'news' feed yields
`None` (no crash), with the one URL attempted. -/
theorem C8_witness :
    extract_articles (str "news") 5 (fun _ => Except.error (str "ConnectionError"))
      = (Except.ok none, [str "https://www.cityam.com/news/rss"]) :=
  C8_theorem (str "news") (str "https://www.cityam.com/news/rss")
    (str "ConnectionError") 5 _ (by decide) (by decide) rfl

/-- C9: each missing entry field is replaced by its documented default
(title → 'No title', author → 'City A.M.', link and published → empty,
categories → empty), and each present field is kept — the title after
sanitization, the categories as the tag terms. -/
theorem C9_theorem (e : RawEntry) :
    (e.title = none → (normalizeEntry e).title = str "No title")
    ∧ (e.author = none → (normalizeEntry e).author = str "City A.M.")
    ∧ (e.link = none → (normalizeEntry e).link = [])
    ∧ (e.published = none → (normalizeEntry e).published = [])
    ∧ (e.tags = none → (normalizeEntry e).categories = [])
    ∧ (∀ t, e.title = some t → (normalizeEntry e).title = clean_html t)
    ∧ (∀ a, e.author = some a → (normalizeEntry e).author = a)
    ∧ (∀ l, e.link = some l → (normalizeEntry e).link = l)
    ∧ (∀ p, e.published = some p → (normalizeEntry e).published = p)
    ∧ (∀ ts, e.tags = some ts → (normalizeEntry e).categories = ts.map Tag.term) := by
  refine ⟨fun h => ?_, fun h => ?_, fun h => ?_, fun h => ?_, fun h => ?_,
    fun t h => ?_, fun a h => ?_, fun l h => ?_, fun p h => ?_, fun ts h => ?_⟩ <;>
    simp only [normalizeEntry, h, Option.getD_none, Option.getD_some] <;>
    first
    | rfl
    | decide

/-- C9 witness: the all-missing entry gets every default, and the full
entry keeps its fields (title sanitized, categories = tag terms). -/
theorem C9_witness :
    (normalizeEntry entryEmpty).title = str "No title"
    ∧ (normalizeEntry entryEmpty).author = str "City A.M."
    ∧ (normalizeEntry entryEmpty).link = []
    ∧ (normalizeEntry entryEmpty).published = []
    ∧ (normalizeEntry entryEmpty).categories = []
    ∧ (normalizeEntry entryFull).title = clean_html (str "Markets <b>rally</b>")
    ∧ (normalizeEntry entryFull).author = str "Jane Doe"
    ∧ (normalizeEntry entryFull).categories = [str "Markets", str "UK"] := by
  have h1 := C9_theorem entryEmpty
  have h2 := C9_theorem entryFull
  exact ⟨h1.1 rfl, h1.2.1 rfl, h1.2.2.1 rfl, h1.2.2.2.1 rfl, h1.2.2.2.2.1 rfl,
    h2.2.2.2.2.2.1 _ rfl, h2.2.2.2.2.2.2.1 _ rfl,
    by rw [h2.2.2.2.2.2.2.2.2.2 _ rfl]; decide⟩

/-- C10: the renderer returns the fixed 'No articles available for
summary.' string for an absent (`None`) feed result, and an absent input
is indistinguishable at the output from a result with an empty article
list. -/
theorem C10_theorem (blogName authorName today nowStamp : List Char) :
    generate_blog_post none blogName authorName today nowStamp
      = str "No articles available for summary."
    ∧ ∀ ft fdsc lu, generate_blog_post (some ⟨ft, fdsc, lu, []⟩)
        blogName authorName today nowStamp
      = generate_blog_post none blogName authorName today nowStamp :=
  ⟨rfl, fun _ _ _ => rfl⟩

/-! ## Whitespace shape of `clean_html` output (claim C2) -/

theorem mem_of_getLast?_eq {α : Type} {l : List α} {a : α}
    (h : l.getLast? = some a) : a ∈ l := by
  induction l with
  | nil => simp [List.getLast?] at h
  | cons x t ih =>
    cases t with
    | nil =>
      simp [List.getLast?] at h
      simp [h]
    | cons y u =>
      rw [List.getLast?_cons_cons] at h
      exact List.mem_cons_of_mem _ (ih h)

theorem noDoubleWs_of_all {l : List Char} (h : ∀ c ∈ l, wsChar c = false) :
    noDoubleWs l = true := by
  induction l with
  | nil => rfl
  | cons a t ih =>
    cases t with
    | nil => rfl
    | cons b u =>
      have ha : wsChar a = false := h a (by simp)
      have ht : ∀ c ∈ b :: u, wsChar c = false := fun c hc => h c (by simp [hc])
      simp only [noDoubleWs, ha, Bool.false_and, Bool.not_false, Bool.true_and]
      exact ih ht

theorem noDoubleWs_append {xs ys : List Char}
    (hx : noDoubleWs xs = true) (hy : noDoubleWs ys = true)
    (hb : ∀ a b, xs.getLast? = some a → ys.head? = some b →
          (wsChar a && wsChar b) = false) :
    noDoubleWs (xs ++ ys) = true := by
  induction xs with
  | nil => simpa using hy
  | cons a t ih =>
    cases t with
    | nil =>
      cases ys with
      | nil => rfl
      | cons b u =>
        have hab : (wsChar a && wsChar b) = false := hb a b rfl rfl
        simp only [List.singleton_append, noDoubleWs, hab, Bool.not_false, Bool.true_and]
        exact hy
    | cons a' t' =>
      have h1 : (wsChar a && wsChar a') = false := by
        simp only [noDoubleWs, Bool.and_eq_true, Bool.not_eq_true'] at hx
        exact hx.1
      have h2 : noDoubleWs (a' :: t') = true := by
        simp only [noDoubleWs, Bool.and_eq_true] at hx
        exact hx.2
      have h3 : ∀ x y, (a' :: t').getLast? = some x → ys.head? = some y →
          (wsChar x && wsChar y) = false := by
        intro x y hxl hyl
        exact hb x y (by rw [List.getLast?_cons_cons]; exact hxl) hyl
      have := ih h2 h3
      simp only [List.cons_append, noDoubleWs, h1, Bool.not_false, Bool.true_and]
      simpa using this

/-- All words produced by `splitWsAux` are nonempty and whitespace-free,
provided the running word is whitespace-free. -/
theorem splitWsAux_words (s : List Char) :
    ∀ cur, (∀ c ∈ cur, wsChar c = false) →
    ∀ w ∈ splitWsAux cur s, w ≠ [] ∧ ∀ c ∈ w, wsChar c = false := by
  induction s with
  | nil =>
    intro cur hcur w hw
    by_cases hc : cur = []
    · simp [splitWsAux, hc] at hw
    · simp only [splitWsAux, if_neg hc, List.mem_singleton] at hw
      subst hw
      refine ⟨by simpa using hc, fun c hc' => hcur c (List.mem_reverse.mp hc')⟩
  | cons c cs ih =>
    intro cur hcur w hw
    by_cases hws : wsChar c
    · simp only [splitWsAux, if_pos hws] at hw
      by_cases hc : cur = []
      · rw [if_pos hc] at hw
        exact ih [] (by simp) w hw
      · rw [if_neg hc] at hw
        rcases List.mem_cons.mp hw with h | h
        · subst h
          refine ⟨by simpa using hc, fun x hx => hcur x (List.mem_reverse.mp hx)⟩
        · exact ih [] (by simp) w h
    · simp only [splitWsAux, if_neg hws] at hw
      refine ih (c :: cur) ?_ w hw
      intro x hx
      rcases List.mem_cons.mp hx with h | h
      · subst h
        exact Bool.not_eq_true _ ▸ (by simpa using hws)
      · exact hcur x h

theorem splitWs_words (s : List Char) :
    ∀ w ∈ splitWs s, w ≠ [] ∧ ∀ c ∈ w, wsChar c = false :=
  splitWsAux_words s [] (by simp)

theorem getLast?_cons_of_ne_nil {α : Type} (a : α) {l : List α} (h : l ≠ []) :
    (a :: l).getLast? = l.getLast? := by
  cases l with
  | nil => exact absurd rfl h
  | cons x t => exact List.getLast?_cons_cons

theorem joinSpace_ne_nil (w : List Char) (ws : List (List Char)) (hw : w ≠ []) :
    joinSpace (w :: ws) ≠ [] := by
  cases ws with
  | nil => simpa [joinSpace] using hw
  | cons x xs =>
    simp only [joinSpace]
    intro h
    rcases List.append_eq_nil.mp h with ⟨_, h2⟩
    simp at h2

theorem joinSpace_head_not_ws {ws : List (List Char)}
    (h : ∀ u ∈ ws, u ≠ [] ∧ ∀ c ∈ u, wsChar c = false) :
    ∀ c, (joinSpace ws).head? = some c → wsChar c = false := by
  cases ws with
  | nil => intro c hc; simp [joinSpace] at hc
  | cons w tail =>
    obtain ⟨hw, hcs⟩ := h w (by simp)
    cases w with
    | nil => exact absurd rfl hw
    | cons d t =>
      intro c hc
      cases tail with
      | nil =>
        simp only [joinSpace, List.head?_cons, Option.some.injEq] at hc
        exact hc ▸ hcs d (by simp)
      | cons x xs =>
        simp only [joinSpace, List.cons_append, List.head?_cons,
          Option.some.injEq] at hc
        exact hc ▸ hcs d (by simp)

theorem joinSpace_last_not_ws {ws : List (List Char)}
    (h : ∀ u ∈ ws, u ≠ [] ∧ ∀ c ∈ u, wsChar c = false) :
    ∀ c, (joinSpace ws).getLast? = some c → wsChar c = false := by
  induction ws with
  | nil => intro c hc; simp [joinSpace] at hc
  | cons w tail ih =>
    intro c hc
    cases tail with
    | nil =>
      simp only [joinSpace] at hc
      exact (h w (by simp)).2 c (mem_of_getLast?_eq hc)
    | cons x xs =>
      have htail : ∀ u ∈ x :: xs, u ≠ [] ∧ ∀ c ∈ u, wsChar c = false :=
        fun u hu => h u (List.mem_cons_of_mem _ hu)
      have hJ : joinSpace (x :: xs) ≠ [] := joinSpace_ne_nil x xs (htail x (by simp)).1
      simp only [joinSpace] at hc
      rw [List.getLast?_append_of_ne_nil _ (by simp),
          getLast?_cons_of_ne_nil _ hJ] at hc
      exact ih htail c hc

theorem joinSpace_noDoubleWs {ws : List (List Char)}
    (h : ∀ u ∈ ws, u ≠ [] ∧ ∀ c ∈ u, wsChar c = false) :
    noDoubleWs (joinSpace ws) = true := by
  induction ws with
  | nil => rfl
  | cons w tail ih =>
    cases tail with
    | nil => exact noDoubleWs_of_all (h w (by simp)).2
    | cons x xs =>
      have htail : ∀ u ∈ x :: xs, u ≠ [] ∧ ∀ c ∈ u, wsChar c = false :=
        fun u hu => h u (List.mem_cons_of_mem _ hu)
      show noDoubleWs (w ++ ' ' :: joinSpace (x :: xs)) = true
      refine noDoubleWs_append (noDoubleWs_of_all (h w (by simp)).2) ?_ ?_
      · cases hJv : joinSpace (x :: xs) with
        | nil => rfl
        | cons j t =>
          have hj : wsChar j = false :=
            joinSpace_head_not_ws htail j (by rw [hJv]; rfl)
          have : noDoubleWs (j :: t) = true := hJv ▸ ih htail
          simp only [noDoubleWs, hj, Bool.and_false, Bool.not_false, Bool.true_and]
          exact this
      · intro a b hal hbl
        have ha : wsChar a = false := (h w (by simp)).2 a (mem_of_getLast?_eq hal)
        simp [ha]

/-- C2 counterexample: tag removal runs before entity decoding, so the
sanitizer's output can contain a `<...>` tag sequence (from an
entity-encoded tag) or a raw HTML entity code (from a double-encoded
entity). -/
theorem C2_counterexample :
    clean_html (str "&lt;b&gt;") = str "<b>"
    ∧ hasTagSeq (clean_html (str "&lt;b&gt;")) = true
    ∧ clean_html (str "&amp;amp;") = str "&amp;" := by
  decide

/-- C2 amended: for every input string the sanitizer's output has no two
adjacent whitespace characters and no leading or trailing whitespace; the
no-tag-sequence and no-entity-code parts of the claim do not hold,
because tags are stripped before entities are decoded. -/
theorem C2_theorem (text : List Char) :
    noDoubleWs (clean_html text) = true ∧ noEdgeWs (clean_html text) = true := by
  unfold clean_html
  by_cases h : text = []
  · rw [if_pos h]
    exact ⟨rfl, rfl⟩
  · rw [if_neg h]
    have hw := splitWs_words (unescape (stripTags text))
    refine ⟨joinSpace_noDoubleWs hw, ?_⟩
    unfold noEdgeWs
    have h1 : (match (joinSpace (splitWs (unescape (stripTags text)))).head? with
        | some c => !wsChar c | none => true) = true := by
      cases hh : (joinSpace (splitWs (unescape (stripTags text)))).head? with
      | none => rfl
      | some c => simp [joinSpace_head_not_ws hw c hh]
    have h2 : (match (joinSpace (splitWs (unescape (stripTags text)))).getLast? with
        | some c => !wsChar c | none => true) = true := by
      cases hh : (joinSpace (splitWs (unescape (stripTags text)))).getLast? with
      | none => rfl
      | some c => simp [joinSpace_last_not_ws hw c hh]
    rw [h1, h2]
    rfl

/-! ## Line structure of the rendered document (claim C4) -/

theorem splitLines_ne_nil (s : List Char) : splitLines s ≠ [] := by
  cases s with
  | nil => simp [splitLines]
  | cons c cs =>
    simp only [splitLines]
    by_cases h : c = '\n'
    · simp [h]
    · rw [if_neg h]
      cases splitLines cs <;> simp

theorem noNl_append (a b : List Char) : noNl (a ++ b) = (noNl a && noNl b) :=
  List.all_append

theorem splitLines_append_noNl (xs ys : List Char) (h : noNl xs = true) :
    splitLines (xs ++ ys) = consHead xs (splitLines ys) := by
  induction xs with
  | nil =>
    cases hs : splitLines ys with
    | nil => exact absurd hs (splitLines_ne_nil ys)
    | cons w ws => simp [consHead, hs]
  | cons c cs ih =>
    simp only [noNl, List.all_cons, Bool.and_eq_true, bne_iff_ne, ne_eq] at h
    have hc : ¬(c = '\n') := h.1
    have hrw := ih h.2
    cases hs : splitLines ys with
    | nil => exact absurd hs (splitLines_ne_nil ys)
    | cons w ws =>
      rw [hs] at hrw
      simp only [consHead] at hrw
      simp only [List.cons_append, splitLines, if_neg hc, List.append_eq]
      rw [hrw]
      simp [consHead, hs]

theorem splitLines_line (xs ys : List Char) (h : noNl xs = true) :
    splitLines (xs ++ '\n' :: ys) = xs :: splitLines ys := by
  rw [splitLines_append_noNl xs _ h]
  have hnl : splitLines ('\n' :: ys) = [] :: splitLines ys := by
    simp [splitLines]
  rw [hnl]
  simp [consHead]

theorem filterNH_keep (L rest : List Char) (h1 : noNl L = true)
    (h2 : isNumberedHeader L = true) :
    numberedHeaderLines (L ++ '\n' :: rest) = L :: numberedHeaderLines rest := by
  unfold numberedHeaderLines
  rw [splitLines_line L rest h1, List.filter_cons_of_pos h2]

theorem filterNH_skip (L rest : List Char) (h1 : noNl L = true)
    (h2 : isNumberedHeader L = false) :
    numberedHeaderLines (L ++ '\n' :: rest) = numberedHeaderLines rest := by
  unfold numberedHeaderLines
  rw [splitLines_line L rest h1, List.filter_cons_of_neg (by simp [h2])]

theorem filterNH_nl (rest : List Char) :
    numberedHeaderLines ('\n' :: rest) = numberedHeaderLines rest := by
  unfold numberedHeaderLines
  have hnl : splitLines ('\n' :: rest) = [] :: splitLines rest := by
    simp [splitLines]
  rw [hnl, List.filter_cons_of_neg (by simp [isNumberedHeader])]

theorem filterNH_empty : numberedHeaderLines [] = [] := rfl

/-! ## Digit facts about `Nat.repr` -/

theorem digitChar_isDigit (m : Nat) (h : m < 10) :
    (Nat.digitChar m).isDigit = true := by
  interval_cases m <;> decide

theorem toDigitsCore_spec (fuel : Nat) : ∀ (n : Nat) (ds : List Char),
    ∃ t, Nat.toDigitsCore 10 fuel n ds = t ++ ds
      ∧ (∀ c ∈ t, c.isDigit = true)
      ∧ (fuel ≠ 0 → t ≠ []) := by
  induction fuel with
  | zero => exact fun n ds => ⟨[], rfl, by simp, by simp⟩
  | succ fuel ih =>
    intro n ds
    by_cases h : n / 10 = 0
    · refine ⟨[Nat.digitChar (n % 10)], ?_, ?_, by simp⟩
      · simp [Nat.toDigitsCore, h]
      · intro c hc
        rw [List.mem_singleton] at hc
        exact hc ▸ digitChar_isDigit _ (Nat.mod_lt _ (by omega))
    · obtain ⟨t, ht, hd, _⟩ := ih (n / 10) (Nat.digitChar (n % 10) :: ds)
      refine ⟨t ++ [Nat.digitChar (n % 10)], ?_, ?_, by simp⟩
      · rw [show Nat.toDigitsCore 10 (fuel + 1) n ds
            = Nat.toDigitsCore 10 fuel (n / 10) (Nat.digitChar (n % 10) :: ds) by
          simp [Nat.toDigitsCore, h], ht]
        simp
      · intro c hc
        rcases List.mem_append.mp hc with h' | h'
        · exact hd c h'
        · rw [List.mem_singleton] at h'
          exact h' ▸ digitChar_isDigit _ (Nat.mod_lt _ (by omega))

theorem repr_digits (n : Nat) :
    ∃ d t, str (Nat.repr n) = d :: t
      ∧ d.isDigit = true ∧ ∀ c ∈ d :: t, c.isDigit = true := by
  obtain ⟨t, ht, hd, hne⟩ := toDigitsCore_spec (n + 1) n []
  have he : str (Nat.repr n) = t := by
    show Nat.toDigits 10 n = t
    rw [Nat.toDigits, ht, List.append_nil]
  cases t with
  | nil => exact absurd rfl (hne (by omega))
  | cons d t' =>
    exact ⟨d, t', he, hd d (by simp), fun c hc => hd c hc⟩

theorem ne_nl_of_isDigit {c : Char} (h : c.isDigit = true) : (c != '\n') = true := by
  by_cases hc : c = '\n'
  · subst hc
    exact absurd h (by decide)
  · simp [hc]

theorem noNl_repr (n : Nat) : noNl (str (Nat.repr n)) = true := by
  obtain ⟨d, t, he, _, hall⟩ := repr_digits n
  rw [he]
  unfold noNl
  rw [List.all_eq_true]
  exact fun c hc => ne_nl_of_isDigit (hall c hc)

theorem noNl_joinCommaSpace (cats : List (List Char))
    (h : ∀ c ∈ cats, noNl c = true) : noNl (joinCommaSpace cats) = true := by
  induction cats with
  | nil => rfl
  | cons x xs ih =>
    cases xs with
    | nil => exact h x (by simp)
    | cons y ys =>
      show noNl (x ++ str ", " ++ joinCommaSpace (y :: ys)) = true
      rw [noNl_append, noNl_append, h x (by simp),
        ih (fun c hc => h c (List.mem_cons_of_mem _ hc))]
      decide

theorem noNl_categoriesText (cats : List (List Char))
    (h : ∀ c ∈ cats, noNl c = true) : noNl (categoriesText cats) = true := by
  unfold categoriesText
  by_cases hc : cats = []
  · rw [if_pos hc]; decide
  · rw [if_neg hc]; exact noNl_joinCommaSpace cats h

theorem sectionHeaders_length (k : Nat) (arts : List Article) :
    (sectionHeaders k arts).length = arts.length := by
  induction arts generalizing k with
  | nil => rfl
  | cons a rest ih => simp [sectionHeaders, ih]

/-- Filtering the header block of the post yields no numbered headings. -/
theorem NH_header (today X : List Char) (h : noNl today = true) :
    numberedHeaderLines (headerText today ++ X) = numberedHeaderLines X := by
  have e : headerText today ++ X
      = (str "# Daily Business News Summary - " ++ today) ++ '\n' ::
        (str "*Curated from City A.M. Business News*" ++ '\n' :: '\n' ::
         (str "---" ++ '\n' :: '\n' ::
          (str "Good morning! Here's your daily roundup of the top business stories from City A.M., London's leading business newspaper." ++
           '\n' :: '\n' :: X))) := by
    simp only [headerText, List.append_assoc]
    rfl
  rw [e]
  rw [filterNH_skip _ _ (by rw [noNl_append, h]; decide) (by rfl)]
  rw [filterNH_skip _ _ (by decide) (by decide)]
  rw [filterNH_nl]
  rw [filterNH_skip _ _ (by decide) (by decide)]
  rw [filterNH_nl]
  rw [filterNH_skip _ _ (by decide) (by decide)]
  rw [filterNH_nl]

/-- Filtering one article section yields exactly its numbered heading. -/
theorem section_filter_step (k : Nat) (a : Article) (Y : List Char)
    (ht : noNl a.title = true) (hs : noNl a.summary = true)
    (hl : noNl a.link = true) (hc : noNl (categoriesText a.categories) = true) :
    numberedHeaderLines (sectionText k a ++ Y)
      = (str "## " ++ str (Nat.repr k) ++ str ". " ++ a.title) ::
        numberedHeaderLines Y := by
  obtain ⟨d, t, hrepr, hd, _⟩ := repr_digits k
  have e : sectionText k a ++ Y
      = (str "## " ++ str (Nat.repr k) ++ str ". " ++ a.title) ++ '\n' :: '\n' ::
        ((str "**Summary**: " ++ a.summary) ++ '\n' :: '\n' ::
         ((str "**Categories**: " ++ categoriesText a.categories) ++ '\n' :: '\n' ::
          ((str "**[Read the full article at City A.M.](" ++ a.link ++ str ")**") ++
           '\n' :: '\n' ::
           (str "---" ++ '\n' :: '\n' :: Y)))) := by
    simp only [sectionText, List.append_assoc]
    rfl
  have hnh : isNumberedHeader (str "## " ++ str (Nat.repr k) ++ str ". " ++ a.title)
      = true := by
    rw [hrepr]
    have hh : isNumberedHeader (str "## " ++ (d :: t) ++ str ". " ++ a.title)
        = d.isDigit := rfl
    rw [hh, hd]
  rw [e]
  rw [filterNH_keep _ _ (by simp only [noNl_append, noNl_repr k, ht]; decide) hnh]
  rw [filterNH_nl]
  rw [filterNH_skip _ _ (by simp only [noNl_append, hs]; decide) (by rfl)]
  rw [filterNH_nl]
  rw [filterNH_skip _ _ (by simp only [noNl_append, hc]; decide) (by rfl)]
  rw [filterNH_nl]
  rw [filterNH_skip _ _ (by simp only [noNl_append, hl]; decide) (by rfl)]
  rw [filterNH_nl]
  rw [filterNH_skip _ _ (by decide) (by decide)]
  rw [filterNH_nl]

/-- Filtering the section loop output yields exactly the numbered
headings of the articles, in order. -/
theorem sections_filter (arts : List Article) : ∀ (k : Nat) (X : List Char),
    (∀ a ∈ arts, noNl a.title = true ∧ noNl a.summary = true
      ∧ noNl a.link = true ∧ ∀ c ∈ a.categories, noNl c = true) →
    numberedHeaderLines (sections k arts ++ X)
      = sectionHeaders k arts ++ numberedHeaderLines X := by
  induction arts with
  | nil =>
    intro k X h
    simp [sections, sectionHeaders]
  | cons a rest ih =>
    intro k X h
    obtain ⟨ht, hs, hl, hcats⟩ := h a (by simp)
    have e : sections k (a :: rest) ++ X
        = sectionText k a ++ (sections (k + 1) rest ++ X) := by
      simp [sections, List.append_assoc]
    rw [e, section_filter_step k a _ ht hs hl (noNl_categoriesText _ hcats),
      ih (k + 1) X (fun b hb => h b (List.mem_cons_of_mem _ hb))]
    rfl

/-- Filtering the footer block yields no numbered headings. -/
theorem NH_footer (bn an ts : List Char) (hbn : noNl bn = true)
    (han : noNl an = true) (hts : noNl ts = true) :
    numberedHeaderLines (footerText bn an ts) = [] := by
  have e : footerText bn an ts = '\n' ::
      (str "## About This Summary" ++ '\n' :: '\n' ::
      (str "This daily summary is automatically curated from [City A.M.](" ++
        base_url ++
        str "), London's premier business newspaper. All original reporting and content rights belong to City A.M. " ++
        '\n' :: '\n' ::
      (str "*Summary compiled by " ++ an ++ str " for " ++ bn ++
        str " | Original content © City A.M.*" ++ '\n' :: '\n' ::
      (str "**Want to stay updated?** " ++ '\n' ::
      (str "- Visit [City A.M.](" ++ base_url ++ str ") for complete coverage" ++
        '\n' ::
      (str "- Download their [free mobile app](https://www.cityam.com/apps/)" ++
        '\n' ::
      (str "- Subscribe to their newsletters" ++ '\n' :: '\n' ::
      (str "---" ++ '\n' ::
      (str "*Disclaimer: This is a curated summary for informational purposes. Please visit the original articles for complete reporting and context.*" ++
        '\n' :: '\n' ::
      (str "*Last updated: " ++ ts ++ str "*" ++
        '\n' :: ([] : List Char))))))))))) := by
    simp only [footerText, List.append_assoc]
    rfl
  rw [e, filterNH_nl]
  rw [filterNH_skip _ _ (by decide) (by decide)]
  rw [filterNH_nl]
  rw [filterNH_skip _ _ (by decide) (by decide)]
  rw [filterNH_nl]
  rw [filterNH_skip _ _ (by simp only [noNl_append, han, hbn]; decide) (by rfl)]
  rw [filterNH_nl]
  rw [filterNH_skip _ _ (by decide) (by decide)]
  rw [filterNH_skip _ _ (by decide) (by decide)]
  rw [filterNH_skip _ _ (by decide) (by decide)]
  rw [filterNH_skip _ _ (by decide) (by decide)]
  rw [filterNH_nl]
  rw [filterNH_skip _ _ (by decide) (by decide)]
  rw [filterNH_skip _ _ (by decide) (by decide)]
  rw [filterNH_nl]
  rw [filterNH_skip _ _ (by simp only [noNl_append, hts]; decide) (by rfl)]
  rfl

/-- C4: the renderer returns exactly 'No articles available for summary.'
on an empty article sequence; on n articles, the rendered document
contains exactly n numbered section headings (lines starting `## ` with a
digit), numbered 1..n in input article order — one per article, carrying
that article's title. -/
theorem C4_theorem (fd : FeedData) (bn an today ts : List Char)
    (hbn : noNl bn = true) (han : noNl an = true)
    (hto : noNl today = true) (hts : noNl ts = true)
    (hart : ∀ a ∈ fd.articles, noNl a.title = true ∧ noNl a.summary = true
      ∧ noNl a.link = true ∧ ∀ c ∈ a.categories, noNl c = true) :
    (fd.articles = [] → generate_blog_post (some fd) bn an today ts
        = str "No articles available for summary.")
    ∧ numberedHeaderLines (generate_blog_post (some fd) bn an today ts)
        = sectionHeaders 1 fd.articles
    ∧ (sectionHeaders 1 fd.articles).length = fd.articles.length := by
  refine ⟨fun h => by simp [generate_blog_post, h], ?_,
    sectionHeaders_length 1 fd.articles⟩
  by_cases h : fd.articles = []
  · rw [show generate_blog_post (some fd) bn an today ts
        = str "No articles available for summary." from by
      simp [generate_blog_post, h]]
    rw [h]
    decide
  · rw [show generate_blog_post (some fd) bn an today ts
        = headerText today ++ (sections 1 fd.articles ++ footerText bn an ts) from by
      simp [generate_blog_post, h]]
    rw [NH_header _ _ hto, sections_filter fd.articles 1 _ hart,
      NH_footer bn an ts hbn han hts, List.append_nil]

/-- C4 witness at a concrete two-article input: the rendered post has
exactly the two numbered headings `## 1. Alpha` and `## 2. Beta`, in
order. -/
theorem C4_witness :
    (noNl (str "October 12, 2026") = true
      ∧ noNl (str "2026-10-12 08:00 UTC") = true
      ∧ ∀ a ∈ fdW.articles, noNl a.title = true ∧ noNl a.summary = true
          ∧ noNl a.link = true ∧ ∀ c ∈ a.categories, noNl c = true)
    ∧ numberedHeaderLines (generate_blog_post (some fdW) (str "Business News Blog")
        (str "Automated Summary") (str "October 12, 2026") (str "2026-10-12 08:00 UTC"))
      = sectionHeaders 1 fdW.articles
    ∧ (sectionHeaders 1 fdW.articles).length = fdW.articles.length
    ∧ sectionHeaders 1 fdW.articles = [str "## 1. Alpha", str "## 2. Beta"] := by
  have h := C4_theorem fdW (str "Business News Blog") (str "Automated Summary")
    (str "October 12, 2026") (str "2026-10-12 08:00 UTC")
    (by decide) (by decide) (by decide) (by decide) (by decide)
  exact ⟨⟨by decide, by decide, by decide⟩, h.2.1, h.2.2, by decide⟩

end CityAM
